import Mathlib

/-!
Verification of the goflexstore query-parameter model and its GORM lowering
layer. Definitions are shallow embeddings of the Go source:

  * `query` package: `Operator` (operator.go), `FilterParam` (filter),
    `ORParam`/`OR` (or.go), `GroupByParam` (groupby.go), `OrderByParam`,
    `SelectParam`, `PaginateParam`, `PreloadParam`, `WithLockParam`
    (withlock.go), `Params`/`NewParams`/`Get`/`GetFilter` (query.go).
  * `gormquery` package: `ScopeBuilder` and its lowering methods
    (gorm/query/builder.go), `buildWhere`/`buildWhereStr`/`buildWhereInStr`/
    `operatorToString`/`inOperatorToString` (the where-clause assembly file).

Go panics are modelled as `Except.error`; Go `nil`-able slices as
`Option (List _)` where `none` is the nil slice; Go `any` filter values as
the first-order `GoValue` type.
-/

namespace GoFlexStore

/-- A scalar Go value usable as a filter value (int, string or bool). -/
inductive Scalar where
  | int : Int → Scalar
  | str : String → Scalar
  | bool : Bool → Scalar
deriving DecidableEq, Repr

/-- A Go `any` value passed as a filter value: `nil`, a scalar, or a
slice/array of scalars (`reflect.Slice` / `reflect.Array`). -/
inductive GoValue where
  | vnil : GoValue
  | scalar : Scalar → GoValue
  | coll : List Scalar → GoValue
deriving DecidableEq, Repr

/-- Go: `type Operator uint8` (src/query/operator.go). Values are plain
naturals; the six declared constants are 0..5. -/
abbrev Operator := Nat

/-- Go: `EQ Operator = iota` -/
def EQ : Operator := 0

/-- Go: `NEQ` -/
def NEQ : Operator := 1

/-- Go: `GT` -/
def GT : Operator := 2

/-- Go: `GTE` -/
def GTE : Operator := 3

/-- Go: `LT` -/
def LT : Operator := 4

/-- Go: `LTE` -/
def LTE : Operator := 5

/-- Go: `func (o Operator) String() string` (current operator file,
src/unnamed/part_004). The switch over the six constants, with default
`fmt.Sprintf("UNKNOWN(%d)", o)` — the numeric value rendered in decimal. -/
def operatorString (o : Operator) : String :=
  if o = EQ then "EQ"
  else if o = NEQ then "NEQ"
  else if o = GT then "GT"
  else if o = GTE then "GTE"
  else if o = LT then "LT"
  else if o = LTE then "LTE"
  else "UNKNOWN(" ++ toString o ++ ")"

/-- Go param-kind constants (src/query/types.go). -/
def TypeFilter : String := "filter"

/-- Go: `TypeGroupBy = "groupby"` -/
def TypeGroupBy : String := "groupby"

/-- Go: `TypeSelect = "select"` -/
def TypeSelect : String := "select"

/-- Go: `TypeOR = "or"` -/
def TypeOR : String := "or"

/-- Go: `TypeOrderBy = "orderby"` -/
def TypeOrderBy : String := "orderby"

/-- Go: `TypePaginate = "paginate"` -/
def TypePaginate : String := "paginate"

/-- Go: `TypePreload = "preload"` -/
def TypePreload : String := "preload"

/-- Kind tag of `WithLockParam`. The constant is referenced by
withlock.go but declared outside the provided sources; its concrete text is
immaterial (only its distinctness from the other tags matters). -/
def TypeWithLock : String := "withlock"

/-- Kind tag of `WithHintParam`; declared outside the provided sources,
concrete text immaterial. -/
def TypeWithHint : String := "withhint"

/-- Kind tag of `ClauseLockForUpdateParam`; declared outside the provided
sources, concrete text immaterial. -/
def TypeClauseLockUpdate : String := "clause_lock_for_update"

/-- Go: `type FilterParam struct { Name string; Operator Operator; Value any }`
(src/query filter file). -/
structure FilterParam where
  name : String
  operator : Operator
  value : GoValue
deriving DecidableEq, Repr

/-- Go: `func (p FilterParam) WithOP(op Operator) FilterParam`. -/
def FilterParam.withOP (p : FilterParam) (op : Operator) : FilterParam :=
  { name := p.name, operator := op, value := p.value }

/-- Go: `func Filter(fieldName string, value any) FilterParam` — default
operator is `EQ`. -/
def Filter (fieldName : String) (value : GoValue) : FilterParam :=
  { name := fieldName, operator := EQ, value := value }

/-- Go: `type OrderByParam struct { Name string; Desc bool }`. -/
structure OrderByParam where
  name : String
  desc : Bool
deriving DecidableEq, Repr

/-- Go: `type GroupByParam struct { Names []string; Option string;
Having []FilterParam }` (src/query/groupby.go). -/
structure GroupByParam where
  names : List String
  option : String
  having : List FilterParam
deriving DecidableEq, Repr

/-- Go: `func (p GroupByParam) WithOption(option string) GroupByParam` —
the returned literal sets only `Names` and `Option`, so `Having` is the
zero value (empty). -/
def GroupByParam.withOption (p : GroupByParam) (option : String) : GroupByParam :=
  { names := p.names, option := option, having := [] }

/-- Go: `func (p GroupByParam) WithHaving(params ...FilterParam) GroupByParam`
— sets `Names`, `Having` and `Option` from the receiver. -/
def GroupByParam.withHaving (p : GroupByParam) (params : List FilterParam) : GroupByParam :=
  { names := p.names, having := params, option := p.option }

/-- Go: `func GroupBy(names ...string) GroupByParam`. -/
def GroupBy (names : List String) : GroupByParam :=
  { names := names, option := "", having := [] }

/-- Go: the `Param` interface together with its closed set of concrete
variants (FilterParam, ORParam, OrderByParam, GroupByParam, SelectParam,
PaginateParam, PreloadParam, WithLockParam, WithHintParam,
ClauseLockForUpdateParam). `PreloadParam` holds a nested param list. -/
inductive Param where
  | filter : FilterParam → Param
  | orParam : List FilterParam → Param
  | orderBy : OrderByParam → Param
  | groupBy : GroupByParam → Param
  | selectParam : List String → Param
  | paginate : Int → Int → Param
  | preload : String → List Param → Param
  | withLock : Int → Param
  | withHint : String → Param
  | clauseLockForUpdate : Param

/-- Go: the `ParamType()` method of every variant — each returns its stable
kind constant. -/
def Param.paramType : Param → String
  | .filter _ => TypeFilter
  | .orParam _ => TypeOR
  | .orderBy _ => TypeOrderBy
  | .groupBy _ => TypeGroupBy
  | .selectParam _ => TypeSelect
  | .paginate _ _ => TypePaginate
  | .preload _ _ => TypePreload
  | .withLock _ => TypeWithLock
  | .withHint _ => TypeWithHint
  | .clauseLockForUpdate => TypeClauseLockUpdate

/-- A Go slice of `α`: `none` is the nil slice, `some l` a non-nil slice
with elements `l`. Go's `append` on a nil slice yields a non-nil slice. -/
abbrev GoSlice (α : Type) := Option (List α)

/-- Go `append(s, a)`: always yields a non-nil slice. -/
def goAppend {α : Type} (s : GoSlice α) (a : α) : GoSlice α :=
  some (s.getD [] ++ [a])

/-- Go: `type Params struct { params []Param; cachedFilter map[string]int }`
(src/query/query.go). The map is modelled as a lookup function. -/
structure Params where
  params : List Param
  cachedFilter : String → Option Nat

/-- Map assignment `m[key] = i` on the modelled `cachedFilter` map. -/
def insertIdx (m : String → Option Nat) (key : String) (i : Nat) :
    String → Option Nat :=
  fun k => if k = key then some i else m k

/-- The loop of `NewParams`: `for i, param := range params { if
param.ParamType() == "filter" { cachedFilter[param.(FilterParam).Name] = i } }`.
In the closed variant type, kind `"filter"` coincides with the `.filter`
constructor, so the type assertion cannot fail. -/
def buildCache (m : String → Option Nat) (i : Nat) :
    List Param → (String → Option Nat)
  | [] => m
  | p :: rest =>
      buildCache
        (match p with
         | .filter f => insertIdx m f.name i
         | _ => m)
        (i + 1) rest

/-- Go: `func NewParams(params ...Param) Params` (src/query/query.go). -/
def NewParams (ps : List Param) : Params :=
  { params := ps, cachedFilter := buildCache (fun _ => none) 0 ps }

/-- Go: method `Params() []Param`. -/
def Params.paramsList (p : Params) : List Param := p.params

/-- The loop of `Params.Get`: seeded with the non-nil empty slice
`params := []Param{}` and appending every param of the requested kind. -/
def getLoop (ty : String) : List Param → GoSlice Param → GoSlice Param
  | [], acc => acc
  | q :: rest, acc =>
      getLoop ty rest (if q.paramType = ty then goAppend acc q else acc)

/-- Go: `func (p Params) Get(paramType string) []Param` (src/query/query.go). -/
def Params.get (p : Params) (paramType : String) : GoSlice Param :=
  getLoop paramType p.params (some [])

/-- The zero value of `FilterParam` returned by `GetFilter` when the name is
not in the index. -/
def emptyFilterParam : FilterParam :=
  { name := "", operator := EQ, value := .vnil }

/-- Go: `func (p Params) GetFilter(name string) (FilterParam, bool)`
(src/query/query.go). The out-of-range / non-filter fallback is unreachable
for a `Params` built by `NewParams` (Go would panic there). -/
def Params.getFilter (p : Params) (name : String) : FilterParam × Bool :=
  match p.cachedFilter name with
  | some i =>
      match p.params.get? i with
      | some (.filter f) => (f, true)
      | _ => (emptyFilterParam, false)
  | none => (emptyFilterParam, false)

/-- Go: `func FilterGetter(name string) func(Params) (FilterParam, bool)`. -/
def FilterGetter (name : String) : Params → FilterParam × Bool :=
  fun params => params.getFilter name

/-- The `.filter` payload of a param, when it is one. -/
def asFilter : Param → Option FilterParam
  | .filter f => some f
  | _ => none

/-- The top-level filters named `n`, in input order. -/
def filtersNamed (ps : List Param) (n : String) : List FilterParam :=
  ps.filterMap fun p =>
    match p with
    | .filter f => if f.name = n then some f else none
    | _ => none

/-- Position (from the head) and payload of the last top-level filter named
`n`. -/
def lastFilterEntry : List Param → String → Option (Nat × FilterParam)
  | [], _ => none
  | p :: rest, n =>
      match lastFilterEntry rest n with
      | some (j, f) => some (j + 1, f)
      | none =>
          match p with
          | .filter f => if f.name = n then some (0, f) else none
          | _ => none

theorem getLoop_eq (ty : String) (l : List Param) : ∀ acc : List Param,
    getLoop ty l (some acc) = some (acc ++ l.filter fun q => q.paramType == ty) := by
  induction l with
  | nil => intro acc; simp [getLoop]
  | cons q rest ih =>
      intro acc
      by_cases h : q.paramType = ty
      · rw [getLoop, if_pos h]
        show getLoop ty rest (some (acc ++ [q])) = _
        rw [ih (acc ++ [q])]
        simp [List.filter_cons, h]
      · rw [getLoop, if_neg h, ih acc]
        simp [List.filter_cons, h]

theorem buildCache_cons (m : String → Option Nat) (i : Nat) (p : Param)
    (rest : List Param) :
    buildCache m i (p :: rest) =
      buildCache
        (match p with
         | .filter f => insertIdx m f.name i
         | _ => m)
        (i + 1) rest := rfl

theorem lastFilterEntry_cons (p : Param) (rest : List Param) (n : String) :
    lastFilterEntry (p :: rest) n =
      (match lastFilterEntry rest n with
       | some (j, f) => some (j + 1, f)
       | none =>
           match p with
           | .filter f => if f.name = n then some (0, f) else none
           | _ => none) := rfl

theorem buildCache_eq (n : String) (ps : List Param) :
    ∀ (m : String → Option Nat) (i : Nat),
    buildCache m i ps n =
      match lastFilterEntry ps n with
      | some jf => some (i + jf.1)
      | none => m n := by
  induction ps with
  | nil => intro m i; rfl
  | cons p rest ih =>
      intro m i
      rw [buildCache_cons, ih, lastFilterEntry_cons]
      cases hrest : lastFilterEntry rest n with
      | some jf =>
          obtain ⟨j, f⟩ := jf
          show some (i + 1 + j) = some (i + (j + 1))
          congr 1
          omega
      | none =>
          cases p with
          | filter f =>
              have hred :
                  (match Param.filter f with
                   | Param.filter g => if g.name = n then some ((0 : Nat), g) else none
                   | _ => none) =
                    if f.name = n then some ((0 : Nat), f) else none := rfl
              rw [hred]
              by_cases hn : f.name = n
              · rw [if_pos hn]
                show insertIdx m f.name i n = some (i + 0)
                simp only [insertIdx]
                rw [if_pos hn.symm]
                rfl
              · rw [if_neg hn]
                show insertIdx m f.name i n = m n
                simp only [insertIdx]
                rw [if_neg fun hh => hn hh.symm]
          | orParam a => rfl
          | orderBy a => rfl
          | groupBy a => rfl
          | selectParam a => rfl
          | paginate a b => rfl
          | preload a b => rfl
          | withLock a => rfl
          | withHint a => rfl
          | clauseLockForUpdate => rfl

theorem lastFilterEntry_get (n : String) (ps : List Param) :
    ∀ j f, lastFilterEntry ps n = some (j, f) → ps.get? j = some (.filter f) := by
  induction ps with
  | nil => intro j f h; simp [lastFilterEntry] at h
  | cons p rest ih =>
      intro j f h
      rw [lastFilterEntry_cons] at h
      cases hrest : lastFilterEntry rest n with
      | some jf =>
          rw [hrest] at h
          have h' : some (jf.1 + 1, jf.2) = some (j, f) := h
          cases h'
          exact ih jf.1 jf.2 hrest
      | none =>
          rw [hrest] at h
          cases p with
          | filter g =>
              have h' : (if g.name = n then some ((0 : Nat), g) else none) =
                  some (j, f) := h
              by_cases hn : g.name = n
              · rw [if_pos hn] at h'
                cases h'
                rfl
              · rw [if_neg hn] at h'
                cases h'
          | orParam a => cases show (none : Option (Nat × FilterParam)) = some (j, f) from h
          | orderBy a => cases show (none : Option (Nat × FilterParam)) = some (j, f) from h
          | groupBy a => cases show (none : Option (Nat × FilterParam)) = some (j, f) from h
          | selectParam a => cases show (none : Option (Nat × FilterParam)) = some (j, f) from h
          | paginate a b => cases show (none : Option (Nat × FilterParam)) = some (j, f) from h
          | preload a b => cases show (none : Option (Nat × FilterParam)) = some (j, f) from h
          | withLock a => cases show (none : Option (Nat × FilterParam)) = some (j, f) from h
          | withHint a => cases show (none : Option (Nat × FilterParam)) = some (j, f) from h
          | clauseLockForUpdate => cases show (none : Option (Nat × FilterParam)) = some (j, f) from h

theorem lastFilterEntry_snd (n : String) (ps : List Param) :
    (lastFilterEntry ps n).map Prod.snd = (filtersNamed ps n).getLast? := by
  induction ps with
  | nil => rfl
  | cons p rest ih =>
      have hFN : filtersNamed (p :: rest) n =
          (match p with
           | Param.filter f => if f.name = n then [f] else []
           | _ => ([] : List FilterParam)) ++ filtersNamed rest n := by
        cases p with
        | filter f =>
            by_cases hn : f.name = n
            · simp [filtersNamed, List.filterMap_cons, hn]
            · simp [filtersNamed, List.filterMap_cons, hn]
        | orParam a => simp [filtersNamed, List.filterMap_cons]
        | orderBy a => simp [filtersNamed, List.filterMap_cons]
        | groupBy a => simp [filtersNamed, List.filterMap_cons]
        | selectParam a => simp [filtersNamed, List.filterMap_cons]
        | paginate a b => simp [filtersNamed, List.filterMap_cons]
        | preload a b => simp [filtersNamed, List.filterMap_cons]
        | withLock a => simp [filtersNamed, List.filterMap_cons]
        | withHint a => simp [filtersNamed, List.filterMap_cons]
        | clauseLockForUpdate => simp [filtersNamed, List.filterMap_cons]
      rw [lastFilterEntry_cons, hFN]
      cases hrest : lastFilterEntry rest n with
      | some jf =>
          obtain ⟨j, f⟩ := jf
          have hne : filtersNamed rest n ≠ [] := by
            intro hempty
            rw [hrest, hempty] at ih
            simp at ih
          rw [List.getLast?_append_of_ne_nil _ hne, ← ih, hrest]
          rfl
      | none =>
          have hempty : filtersNamed rest n = [] := by
            rw [hrest] at ih
            exact List.getLast?_eq_none_iff.mp ih.symm
          rw [hempty, List.append_nil]
          cases p with
          | filter f =>
              have hred1 :
                  (match Param.filter f with
                   | Param.filter g => if g.name = n then some ((0 : Nat), g) else none
                   | _ => none) =
                    if f.name = n then some ((0 : Nat), f) else none := rfl
              have hred2 :
                  (match Param.filter f with
                   | Param.filter g => if g.name = n then [g] else []
                   | _ => ([] : List FilterParam)) =
                    if f.name = n then [f] else [] := rfl
              rw [hred1, hred2]
              by_cases hn : f.name = n
              · rw [if_pos hn, if_pos hn]
                rfl
              · rw [if_neg hn, if_neg hn]
                rfl
          | orParam a => rfl
          | orderBy a => rfl
          | groupBy a => rfl
          | selectParam a => rfl
          | paginate a b => rfl
          | preload a b => rfl
          | withLock a => rfl
          | withHint a => rfl
          | clauseLockForUpdate => rfl

theorem getFilter_eq_of (p : Params) (n : String) (i : Nat) (f : FilterParam)
    (h1 : p.cachedFilter n = some i) (h2 : p.params.get? i = some (.filter f)) :
    p.getFilter n = (f, true) := by
  unfold Params.getFilter
  simp only [h1, h2]

theorem getFilter_eq_none (p : Params) (n : String)
    (h1 : p.cachedFilter n = none) :
    p.getFilter n = (emptyFilterParam, false) := by
  unfold Params.getFilter
  simp only [h1]

/-- Claim C6: for a field name that occurs as the field of at least one
`Filter` in the list, `NewParams(...).GetFilter(name)` returns the last such
filter in input order with `found = true`, via the index built by
`NewParams`; for a name with no filter it returns `found = false`. -/
theorem getFilter_returns_last_filter (ps : List Param) (n : String) :
    (NewParams ps).getFilter n =
      match (filtersNamed ps n).getLast? with
      | some f => (f, true)
      | none => (emptyFilterParam, false) := by
  cases hl : lastFilterEntry ps n with
  | some jf =>
      have hcache : (NewParams ps).cachedFilter n = some jf.1 := by
        show buildCache (fun _ => none) 0 ps n = some jf.1
        rw [buildCache_eq, hl]
        simp
      have hget : ps.get? jf.1 = some (.filter jf.2) :=
        lastFilterEntry_get n ps jf.1 jf.2 hl
      have hsnd : (filtersNamed ps n).getLast? = some jf.2 := by
        rw [← lastFilterEntry_snd, hl]
        rfl
      rw [hsnd]
      exact getFilter_eq_of (NewParams ps) n jf.1 jf.2 hcache hget
  | none =>
      have hcache : (NewParams ps).cachedFilter n = none := by
        show buildCache (fun _ => none) 0 ps n = none
        rw [buildCache_eq, hl]
      have hsnd : (filtersNamed ps n).getLast? = none := by
        rw [← lastFilterEntry_snd, hl]
        rfl
      rw [hsnd]
      exact getFilter_eq_none (NewParams ps) n hcache

/-- Claim C7: `NewParams(p1, p2, ...).Get(kind)` returns exactly the
sub-sequence of the inputs whose kind equals `kind`, in original order, and
an empty non-nil slice (`some []`) when none match. -/
theorem get_returns_kind_subsequence (ps : List Param) (ty : String) :
    (NewParams ps).get ty = some (ps.filter fun q => q.paramType == ty) := by
  show getLoop ty ps (some []) = _
  rw [getLoop_eq]
  simp

/-- Claim C8: `WithOP` preserves field name and value and changes only the
operator; a second `WithOP` overrides the first; the default operator of
`Filter` is `EQ`. -/
theorem withOP_changes_only_operator (f : String) (v : GoValue)
    (op1 op2 : Operator) :
    ((Filter f v).withOP op1).name = f ∧
    ((Filter f v).withOP op1).value = v ∧
    ((Filter f v).withOP op1).operator = op1 ∧
    ((Filter f v).withOP op1).withOP op2 = (Filter f v).withOP op2 ∧
    (Filter f v).operator = EQ :=
  ⟨rfl, rfl, rfl, rfl, rfl⟩

/-- Claim C9: for every operator value outside the enumeration (0..5),
`Operator.String()` renders "UNKNOWN(<n>)" carrying the numeric value —
never the bare string "UNKNOWN" — and the six known operators return their
stable names EQ, NEQ, GT, GTE, LT, LTE. -/
theorem operatorString_unknown_renders_numeric (n : Nat) (h : 5 < n) :
    operatorString n = "UNKNOWN(" ++ toString n ++ ")" ∧
    operatorString n ≠ "UNKNOWN" ∧
    operatorString EQ = "EQ" ∧ operatorString NEQ = "NEQ" ∧
    operatorString GT = "GT" ∧ operatorString GTE = "GTE" ∧
    operatorString LT = "LT" ∧ operatorString LTE = "LTE" := by
  have h0 : ¬(n = 0) := by omega
  have h1 : ¬(n = 1) := by omega
  have h2 : ¬(n = 2) := by omega
  have h3 : ¬(n = 3) := by omega
  have h4 : ¬(n = 4) := by omega
  have h5 : ¬(n = 5) := by omega
  have hval : operatorString n = "UNKNOWN(" ++ toString n ++ ")" := by
    simp only [operatorString, EQ, NEQ, GT, GTE, LT, LTE]
    rw [if_neg h0, if_neg h1, if_neg h2, if_neg h3, if_neg h4, if_neg h5]
  refine ⟨hval, ?_, rfl, rfl, rfl, rfl, rfl, rfl⟩
  rw [hval]
  intro heq
  have hlen := congrArg String.length heq
  rw [String.length_append, String.length_append] at hlen
  have l8 : "UNKNOWN(".length = 8 := rfl
  have l1 : ")".length = 1 := rfl
  have l7 : "UNKNOWN".length = 7 := rfl
  rw [l8, l1, l7] at hlen
  omega

theorem operatorString_unknown_renders_numeric_witness :
    5 < (100 : Nat) ∧
    (operatorString 100 = "UNKNOWN(" ++ toString 100 ++ ")" ∧
     operatorString 100 ≠ "UNKNOWN" ∧
     operatorString EQ = "EQ" ∧ operatorString NEQ = "NEQ" ∧
     operatorString GT = "GT" ∧ operatorString GTE = "GTE" ∧
     operatorString LT = "LT" ∧ operatorString LTE = "LTE") :=
  ⟨by decide, operatorString_unknown_renders_numeric 100 (by decide)⟩

/-- Claim C10: for a `GroupByParam` with non-empty `Having`, `WithOption`
keeps `Names`, sets the new option, and discards `Having`, while
`WithHaving` keeps both `Names` and `Option` and replaces `Having`. -/
theorem withOption_discards_having (p : GroupByParam) (o : String)
    (fs : List FilterParam) (h : p.having ≠ []) :
    (p.withOption o).names = p.names ∧
    (p.withOption o).option = o ∧
    (p.withOption o).having = [] ∧
    (p.withHaving fs).names = p.names ∧
    (p.withHaving fs).option = p.option ∧
    (p.withHaving fs).having = fs :=
  ⟨rfl, rfl, rfl, rfl, rfl, rfl⟩

/-- A concrete grouping param with a non-empty having list. -/
def g0 : GroupByParam :=
  { names := ["a", "b"], option := "opt0",
    having := [Filter "cnt" (.scalar (.int 5))] }

theorem withOption_discards_having_witness :
    g0.having ≠ [] ∧
    ((g0.withOption "WITH ROLLUP").names = g0.names ∧
     (g0.withOption "WITH ROLLUP").option = "WITH ROLLUP" ∧
     (g0.withOption "WITH ROLLUP").having = [] ∧
     (g0.withHaving [Filter "n" (.scalar (.int 1))]).names = g0.names ∧
     (g0.withHaving [Filter "n" (.scalar (.int 1))]).option = g0.option ∧
     (g0.withHaving [Filter "n" (.scalar (.int 1))]).having =
       [Filter "n" (.scalar (.int 1))]) :=
  ⟨by decide,
   withOption_discards_having g0 "WITH ROLLUP"
     [Filter "n" (.scalar (.int 1))] (by decide)⟩

/-- Go: `func operatorToString(op query.Operator) string` (gormquery
where-clause assembly) — the SQL token of an operator, default "UNKNOWN". -/
def operatorToString (op : Operator) : String :=
  if op = EQ then "="
  else if op = NEQ then "<>"
  else if op = GT then ">"
  else if op = GTE then ">="
  else if op = LT then "<"
  else if op = LTE then "<="
  else "UNKNOWN"

/-- Go: `func inOperatorToString(op query.Operator) string` — "IN" for EQ,
"NOT IN" for NEQ; any other operator panics with
`errors.Errorf("%s is unsupported operator for IN clause", op.String())`.
The panic is modelled as `Except.error`. -/
def inOperatorToString (op : Operator) : Except String String :=
  if op = EQ then .ok "IN"
  else if op = NEQ then .ok "NOT IN"
  else .error (operatorString op ++ " is unsupported operator for IN clause")

/-- Go: `func buildWhereStr(fieldName string, operator query.Operator) string`
— `<field> <token> ?`. -/
def buildWhereStr (fieldName : String) (operator : Operator) : String :=
  fieldName ++ " " ++ operatorToString operator ++ " ?"

/-- Go: `func buildWhereInStr(fieldName string, op query.Operator) string`
— `<field> <IN-token> (?)`; propagates the `inOperatorToString` panic. -/
def buildWhereInStr (fieldName : String) (op : Operator) : Except String String := do
  pure (fieldName ++ " " ++ (← inOperatorToString op) ++ " (?)")

/-- Go: `func buildWhere(fieldName string, operator query.Operator, value any)
(string, any)` (gormquery where-clause assembly). Panics — modelled as
`Except.error` — on a nil value; on a slice/array it builds the IN clause
when the length exceeds 1, otherwise `reflect` indexes element 0 (which
panics on an empty collection) and builds the scalar clause; a non-collection
value builds the scalar clause directly. -/
def buildWhere (fieldName : String) (operator : Operator) (value : GoValue) :
    Except String (String × GoValue) :=
  match value with
  | .vnil => .error "value cannot be nil"
  | .coll xs =>
      if 1 < xs.length then do
        pure ((← buildWhereInStr fieldName operator), .coll xs)
      else
        match xs with
        | x :: _ => .ok (buildWhereStr fieldName operator, .scalar x)
        | [] => .error "reflect: slice index out of range"
  | .scalar s => .ok (buildWhereStr fieldName operator, .scalar s)

/-- Claim C2: where-clause assembly over a collection of length > 1 yields
`<col> IN (?)` (EQ) or `<col> NOT IN (?)` (NEQ) bound to the whole
collection; a 1-element collection is unwrapped to the scalar template
`<col> <op> ?` bound to its single element; and a non-collection value
yields `<col> <op> ?` bound to the value itself. -/
theorem buildWhere_collection_scalar (col : String) (op : Operator)
    (x : Scalar) (xs : List Scalar) (hlen : 1 < xs.length) :
    buildWhere col EQ (.coll xs) = .ok (col ++ " IN (?)", .coll xs) ∧
    buildWhere col NEQ (.coll xs) = .ok (col ++ " NOT IN (?)", .coll xs) ∧
    buildWhere col op (.coll [x]) =
      .ok (col ++ " " ++ operatorToString op ++ " ?", .scalar x) ∧
    buildWhere col op (.scalar x) =
      .ok (col ++ " " ++ operatorToString op ++ " ?", .scalar x) := by
  refine ⟨?_, ?_, rfl, rfl⟩
  · show (if 1 < xs.length then _ else _) = _
    rw [if_pos hlen]
    show Except.ok (col ++ " " ++ "IN" ++ " (?)", GoValue.coll xs) = _
    simp only [String.append_assoc]
    rfl
  · show (if 1 < xs.length then _ else _) = _
    rw [if_pos hlen]
    show Except.ok (col ++ " " ++ "NOT IN" ++ " (?)", GoValue.coll xs) = _
    simp only [String.append_assoc]
    rfl

theorem buildWhere_collection_scalar_witness :
    1 < ([Scalar.int 1, Scalar.int 2] : List Scalar).length ∧
    (buildWhere "id" EQ (.coll [Scalar.int 1, Scalar.int 2]) =
       .ok ("id" ++ " IN (?)", .coll [Scalar.int 1, Scalar.int 2]) ∧
     buildWhere "id" NEQ (.coll [Scalar.int 1, Scalar.int 2]) =
       .ok ("id" ++ " NOT IN (?)", .coll [Scalar.int 1, Scalar.int 2]) ∧
     buildWhere "id" GT (.coll [Scalar.int 3]) =
       .ok ("id" ++ " " ++ operatorToString GT ++ " ?", .scalar (Scalar.int 3)) ∧
     buildWhere "id" GT (.scalar (Scalar.int 3)) =
       .ok ("id" ++ " " ++ operatorToString GT ++ " ?", .scalar (Scalar.int 3))) :=
  ⟨by decide,
   buildWhere_collection_scalar "id" GT (Scalar.int 3)
     [Scalar.int 1, Scalar.int 2] (by decide)⟩

/-- Claim C3: the operator-to-IN-token mapping is exactly EQ to "IN" and
NEQ to "NOT IN"; any other operator combined with a collection of length
greater than 1 is rejected with an error (a panic naming the operator)
rather than producing a predicate. -/
theorem inOperator_only_eq_neq (col : String) (op : Operator)
    (xs : List Scalar) (hop1 : op ≠ EQ) (hop2 : op ≠ NEQ)
    (hlen : 1 < xs.length) :
    inOperatorToString EQ = .ok "IN" ∧
    inOperatorToString NEQ = .ok "NOT IN" ∧
    buildWhere col op (.coll xs) =
      .error (operatorString op ++ " is unsupported operator for IN clause") := by
  refine ⟨rfl, rfl, ?_⟩
  show (if 1 < xs.length then _ else _) = _
  rw [if_pos hlen]
  show (do
    pure ((← buildWhereInStr col op), GoValue.coll xs) :
      Except String (String × GoValue)) = _
  rw [buildWhereInStr, inOperatorToString, if_neg hop1, if_neg hop2]
  rfl

theorem inOperator_only_eq_neq_witness :
    (GT ≠ EQ ∧ GT ≠ NEQ ∧
      1 < ([Scalar.int 1, Scalar.int 2] : List Scalar).length) ∧
    (inOperatorToString EQ = .ok "IN" ∧
     inOperatorToString NEQ = .ok "NOT IN" ∧
     buildWhere "id" GT (.coll [Scalar.int 1, Scalar.int 2]) =
       .error (operatorString GT ++ " is unsupported operator for IN clause")) :=
  ⟨⟨by decide, by decide, by decide⟩,
   inOperator_only_eq_neq "id" GT [Scalar.int 1, Scalar.int 2]
     (by decide) (by decide) (by decide)⟩

/-- A predicate tree accumulated in a query's WHERE clause. `cond` is one
parameterized condition (template, bound value); `and`/`or` are the
connectives. Nesting is preserved, so a sub-tree attached as one `and`
operand stays grouped (parenthesized). -/
inductive Pred where
  | cond : String → GoValue → Pred
  | and : Pred → Pred → Pred
  | or : Pred → Pred → Pred
deriving DecidableEq, Repr

/-- Modelled from the spec: the externally-owned query-building context (a
`gorm.DB`) as far as the lowering layer mutates it — WHERE predicate, sort
terms, group strings, having conditions, projection, offset/limit window,
preload requests and locking clauses. The preload entry records the relation
name and the nested params from which its sub-scopes are built. -/
structure GormDB where
  wherePred : Option Pred
  orders : List (String × Bool)
  groups : List String
  havings : List (String × GoValue)
  selected : Option (List String)
  offsetVal : Option Int
  limitVal : Option Int
  preloads : List (String × List Param)
  locks : List String

/-- The fresh query context created by `tx.Session(&gorm.Session{NewDB: true})`. -/
def emptyDB : GormDB :=
  { wherePred := none, orders := [], groups := [], havings := [],
    selected := none, offsetVal := none, limitVal := none,
    preloads := [], locks := [] }

/-- Modelled from the spec: `tx.Where(template, value)` adds one
parameterized condition as an AND-term of the WHERE predicate. -/
def GormDB.whereCond (db : GormDB) (c : String × GoValue) : GormDB :=
  { db with
    wherePred := some (match db.wherePred with
      | some p => .and p (.cond c.1 c.2)
      | none => .cond c.1 c.2) }

/-- Modelled from the spec: `tx.Or(template, value)` OR-combines one
parameterized condition with the existing WHERE predicate (seeding it when
none exists yet). -/
def GormDB.orCond (db : GormDB) (c : String × GoValue) : GormDB :=
  { db with
    wherePred := some (match db.wherePred with
      | some p => .or p (.cond c.1 c.2)
      | none => .cond c.1 c.2) }

/-- Modelled from the spec: `tx.Where(db)` with a sub-query context attaches
the sub-context's whole WHERE predicate as one grouped AND-term of the outer
predicate (and leaves the outer query unchanged when the sub-context has no
predicate). -/
def GormDB.whereSub (db sub : GormDB) : GormDB :=
  match sub.wherePred with
  | some q =>
      { db with
        wherePred := some (match db.wherePred with
          | some p => .and p q
          | none => q) }
  | none => db

/-- Go: `type ScopeFunc = func(*gorm.DB) *gorm.DB`; a panic raised while the
scope runs is modelled as `Except.error`. -/
abbrev ScopeFunc := GormDB → Except String GormDB

/-- Go: `type ScopeBuilderFunc = func(query.Param) ScopeFunc`; a panic at
lowering time (e.g. a failed type assertion) is `Except.error`. -/
abbrev ScopeBuilderFunc := Param → Except String ScopeFunc

/-- Go: the `ScopeBuilder` configuration (gorm/query/builder.go):
field-to-column renaming map and per-field custom filter overrides. The
registry field is not stored here: the claims concern the default registry
that `NewBuilder` seeds, modelled by `ScopeBuilder.registryLookup`. -/
structure ScopeBuilder where
  fieldToColMap : String → Option String
  customFilters : String → Option ScopeBuilderFunc

/-- Go: `func (b *ScopeBuilder) getColName(name string) string`. -/
def ScopeBuilder.getColName (b : ScopeBuilder) (name : String) : String :=
  match b.fieldToColMap name with
  | some col => col
  | none => name

/-- Go: `func (b *ScopeBuilder) Filter(param query.Param) ScopeFunc` — a
custom filter for the field, when registered, handles the param entirely;
otherwise the column is resolved and the scope applies
`tx.Where(buildWhere(col, op, value))`. -/
def ScopeBuilder.Filter (b : ScopeBuilder) : ScopeBuilderFunc
  | .filter p =>
      match b.customFilters p.name with
      | some builder => builder (.filter p)
      | none =>
          let col := b.getColName p.name
          .ok fun tx => do
            pure (tx.whereCond (← buildWhere col p.operator p.value))
  | p => .error ("interface conversion: Param is " ++ p.paramType ++ ", not filter")

/-- The loop body of the OR scope: `for i, filter := range p.Params` —
the first filter seeds the sub-query via `Where`, later ones are
`Or`-combined; each condition comes from `buildWhere` on the resolved
column. -/
def orLoop (b : ScopeBuilder) : List FilterParam → Nat → GormDB →
    Except String GormDB
  | [], _, db => .ok db
  | f :: rest, i, db => do
      let col := b.getColName f.name
      let c ← buildWhere col f.operator f.value
      orLoop b rest (i + 1) (if i = 0 then db.whereCond c else db.orCond c)

/-- The scope closure returned by `ScopeBuilder.OR`: builds a fresh session,
runs the filter loop over it, and attaches it with `tx.Where(db)`. -/
def orScope (b : ScopeBuilder) (filters : List FilterParam) : ScopeFunc :=
  fun tx => do
    pure (tx.whereSub (← orLoop b filters 0 emptyDB))

/-- Go: `func (b *ScopeBuilder) OR(param query.Param) ScopeFunc`. -/
def ScopeBuilder.OR (b : ScopeBuilder) : ScopeBuilderFunc
  | .orParam filters => .ok (orScope b filters)
  | p => .error ("interface conversion: Param is " ++ p.paramType ++ ", not or")

/-- Go: `func (b *ScopeBuilder) Paginate(param query.Param) ScopeFunc` —
`tx.Offset(p.Offset).Limit(p.Limit)`. -/
def ScopeBuilder.Paginate (b : ScopeBuilder) : ScopeBuilderFunc
  | .paginate off lim =>
      .ok fun tx => .ok { tx with offsetVal := some off, limitVal := some lim }
  | p => .error ("interface conversion: Param is " ++ p.paramType ++ ", not paginate")

/-- The having loop of the GroupBy scope: each having filter is lowered by
`buildWhere` on the resolved column and attached with `tx.Having(...)`. -/
def havingLoop (b : ScopeBuilder) : List FilterParam → GormDB →
    Except String GormDB
  | [], tx => .ok tx
  | h :: rest, tx => do
      let c ← buildWhere (b.getColName h.name) h.operator h.value
      havingLoop b rest { tx with havings := tx.havings ++ [c] }

/-- Go: `func (b *ScopeBuilder) GroupBy(param query.Param) ScopeFunc` —
resolves the grouping columns, joins them with ", ", appends the option
after a space when non-empty, applies `tx.Group`, then lowers each having
filter. -/
def ScopeBuilder.GroupBy (b : ScopeBuilder) : ScopeBuilderFunc
  | .groupBy p =>
      .ok fun tx => do
        let cols := p.names.map b.getColName
        let groupBy := String.intercalate ", " cols
        let groupBy := if p.option ≠ "" then groupBy ++ " " ++ p.option else groupBy
        let tx := { tx with groups := tx.groups ++ [groupBy] }
        if p.having.length > 0 then havingLoop b p.having tx else pure tx
  | p => .error ("interface conversion: Param is " ++ p.paramType ++ ", not groupby")

/-- Go: `func (b *ScopeBuilder) Select(param query.Param) ScopeFunc` —
`tx.Select(cols)` with the resolved columns, in the given order. -/
def ScopeBuilder.Select (b : ScopeBuilder) : ScopeBuilderFunc
  | .selectParam names =>
      .ok fun tx => .ok { tx with selected := some (names.map b.getColName) }
  | p => .error ("interface conversion: Param is " ++ p.paramType ++ ", not select")

/-- Go: `func (b *ScopeBuilder) OrderBy(param query.Param) ScopeFunc` —
appends one sort term (resolved column, descending flag). -/
def ScopeBuilder.OrderBy (b : ScopeBuilder) : ScopeBuilderFunc
  | .orderBy p =>
      .ok fun tx => .ok { tx with orders := tx.orders ++ [(b.getColName p.name, p.desc)] }
  | p => .error ("interface conversion: Param is " ++ p.paramType ++ ", not orderby")

/-- Go: `func (b *ScopeBuilder) Preload(param query.Param) ScopeFunc` — the
scope requests eager-loading of the named relation; with nested params, gorm
receives the sub-scopes built recursively by `b.Build(NewParams(p.Params...))`.
The model records the relation name with the nested params that determine
those sub-scopes (the state cannot store scope functions). -/
def ScopeBuilder.Preload (b : ScopeBuilder) : ScopeBuilderFunc
  | .preload name ps =>
      .ok fun tx => .ok { tx with preloads := tx.preloads ++ [(name, ps)] }
  | p => .error ("interface conversion: Param is " ++ p.paramType ++ ", not preload")

/-- Go: `LockTypeForUpdate LockType = iota` (src/query/withlock.go). -/
def LockTypeForUpdate : Int := 0

/-- The scope returned for `LockTypeForUpdate`:
`tx.Clauses(clause.Locking{Strength: "UPDATE"})`. -/
def lockUpdateScope : ScopeFunc :=
  fun tx => .ok { tx with locks := tx.locks ++ ["UPDATE"] }

/-- The scope returned by the default branch of `ClauseLockUpdate`:
`func(tx *gorm.DB) *gorm.DB { return tx }` — the identity mutation. -/
def idScope : ScopeFunc := fun tx => .ok tx

/-- Go: `func (b *ScopeBuilder) ClauseLockUpdate(param query.Param) ScopeFunc`
(gorm/query/builder.go) — `switch param.(query.WithLockParam).LockType`:
`LockTypeForUpdate` yields the locking clause scope, and the `default`
branch returns the query unchanged. -/
def ScopeBuilder.ClauseLockUpdate (b : ScopeBuilder) : ScopeBuilderFunc
  | .withLock k => if k = LockTypeForUpdate then .ok lockUpdateScope else .ok idScope
  | p => .error ("interface conversion: Param is " ++ p.paramType ++ ", not withlock")

/-- Go: the registry literal seeded by `NewBuilder` (gorm/query/builder.go):
kind constant to bound lowering method, for exactly the eight built-in
kinds. Lookup of any other kind misses. Options may override the registry;
the claims concern this default. -/
def ScopeBuilder.registryLookup (b : ScopeBuilder) (ty : String) :
    Option ScopeBuilderFunc :=
  if ty = TypeFilter then some b.Filter
  else if ty = TypeOR then some b.OR
  else if ty = TypePaginate then some b.Paginate
  else if ty = TypeGroupBy then some b.GroupBy
  else if ty = TypeSelect then some b.Select
  else if ty = TypeOrderBy then some b.OrderBy
  else if ty = TypePreload then some b.Preload
  else if ty = TypeWithLock then some b.ClauseLockUpdate
  else none

/-- The loop of `Build`: `for _, param := range params.Params()` — a
registered kind contributes its lowered scope, an unregistered kind is
skipped. The accumulator starts as Go's nil slice (`var scopes []ScopeFunc`). -/
def buildLoop (b : ScopeBuilder) : List Param → GoSlice ScopeFunc →
    Except String (GoSlice ScopeFunc)
  | [], acc => .ok acc
  | p :: rest, acc =>
      match b.registryLookup p.paramType with
      | some builder => do
          let s ← builder p
          buildLoop b rest (goAppend acc s)
      | none => buildLoop b rest acc

/-- Go: `func (b *ScopeBuilder) Build(params query.Params) []ScopeFunc`. -/
def ScopeBuilder.Build (b : ScopeBuilder) (ps : Params) :
    Except String (GoSlice ScopeFunc) :=
  buildLoop b ps.params none

/-- The builder produced by `NewBuilder()` with no options: identity column
map, no custom filters, default registry. -/
def defaultBuilder : ScopeBuilder :=
  { fieldToColMap := fun _ => none, customFilters := fun _ => none }

theorem exbind_ok {ε α β : Type} (a : α) (g : α → Except ε β) :
    Except.ok a >>= g = g a := rfl

/-- The per-child lowering of an OR group: `buildWhere` on the resolved
column of every child filter, in order, propagating the first panic. -/
def lowerChildren (b : ScopeBuilder) :
    List FilterParam → Except String (List (String × GoValue))
  | [] => .ok []
  | f :: rest =>
      match buildWhere (b.getColName f.name) f.operator f.value with
      | .error e => .error e
      | .ok c =>
          match lowerChildren b rest with
          | .error e => .error e
          | .ok cs => .ok (c :: cs)

/-- The OR-combination of a seed condition with the remaining conditions,
in order, left-associated. -/
def orChain (c : String × GoValue) (cs : List (String × GoValue)) : Pred :=
  cs.foldl (fun p d => .or p (.cond d.1 d.2)) (.cond c.1 c.2)

theorem foldl_orCond_wherePred (cs : List (String × GoValue)) :
    ∀ (db : GormDB) (p : Pred), db.wherePred = some p →
    (cs.foldl (fun d c2 => d.orCond c2) db).wherePred =
      some (cs.foldl (fun q d => .or q (.cond d.1 d.2)) p) := by
  induction cs with
  | nil => intro db p hp; exact hp
  | cons c2 rest ih =>
      intro db p hp
      show (rest.foldl (fun d c3 => d.orCond c3) (db.orCond c2)).wherePred = _
      refine ih (db.orCond c2) (.or p (.cond c2.1 c2.2)) ?_
      show (some (match db.wherePred with
        | some q => Pred.or q (.cond c2.1 c2.2)
        | none => .cond c2.1 c2.2) : Option Pred) =
        some (.or p (.cond c2.1 c2.2))
      rw [hp]

theorem orLoop_ok (b : ScopeBuilder) (fs : List FilterParam) :
    ∀ (cs : List (String × GoValue)) (i : Nat) (db : GormDB),
    lowerChildren b fs = .ok cs → i ≠ 0 →
    orLoop b fs i db = .ok (cs.foldl (fun d c2 => d.orCond c2) db) := by
  induction fs with
  | nil =>
      intro cs i db hcs hi
      cases show (Except.ok [] : Except String (List (String × GoValue))) =
        .ok cs from hcs
      rfl
  | cons f rest ih =>
      intro cs i db hcs hi
      cases hbw : buildWhere (b.getColName f.name) f.operator f.value with
      | error e =>
          rw [lowerChildren, hbw] at hcs
          cases hcs
      | ok c =>
          rw [lowerChildren, hbw] at hcs
          cases hrest : lowerChildren b rest with
          | error e =>
              rw [hrest] at hcs
              cases hcs
          | ok cs' =>
              rw [hrest] at hcs
              cases show (Except.ok (c :: cs') : Except String _) = .ok cs from hcs
              rw [orLoop, hbw]
              simp only [exbind_ok]
              rw [if_neg hi]
              rw [ih cs' (i + 1) (db.orCond c) hrest (by omega)]
              rfl

/-- Claim C4: lowering an OR param with a non-empty child list builds an
isolated sub-scope in which the first child's condition seeds the WHERE
predicate and each later child is OR-combined in original order, and the
finished group is attached to the surrounding query as one AND-term (the
group stays nested, never flattened). -/
theorem or_groups_as_single_and_term (b : ScopeBuilder) (f : FilterParam)
    (fs : List FilterParam) (tx : GormDB) (c : String × GoValue)
    (cs : List (String × GoValue))
    (hc : buildWhere (b.getColName f.name) f.operator f.value = .ok c)
    (hcs : lowerChildren b fs = .ok cs) :
    b.OR (.orParam (f :: fs)) = .ok (orScope b (f :: fs)) ∧
    orScope b (f :: fs) tx =
      .ok { tx with
            wherePred := some (match tx.wherePred with
              | some p => .and p (orChain c cs)
              | none => orChain c cs) } := by
  refine ⟨rfl, ?_⟩
  have h1 : orLoop b (f :: fs) 0 emptyDB =
      .ok (cs.foldl (fun d c2 => d.orCond c2) (emptyDB.whereCond c)) := by
    rw [orLoop, hc]
    simp only [exbind_ok, if_true]
    exact orLoop_ok b fs cs 1 (emptyDB.whereCond c) hcs (by omega)
  have h2 : (cs.foldl (fun d c2 => d.orCond c2) (emptyDB.whereCond c)).wherePred =
      some (orChain c cs) :=
    foldl_orCond_wherePred cs (emptyDB.whereCond c) (.cond c.1 c.2) rfl
  show orLoop b (f :: fs) 0 emptyDB >>=
    (fun db => pure (tx.whereSub db)) = _
  rw [h1]
  simp only [exbind_ok]
  show Except.ok (tx.whereSub _) = _
  rw [GormDB.whereSub, h2]

/-- A concrete query context whose WHERE clause already holds one
condition, used to exhibit the AND-attachment of lowered groups. -/
def tx1 : GormDB := emptyDB.whereCond ("status = ?", .scalar (.str "active"))

theorem or_groups_as_single_and_term_witness :
    (buildWhere (defaultBuilder.getColName "id") EQ (.scalar (.int 1)) =
       .ok ("id = ?", .scalar (.int 1)) ∧
     lowerChildren defaultBuilder [Filter "id" (.scalar (.int 2))] =
       .ok [("id = ?", .scalar (.int 2))]) ∧
    (defaultBuilder.OR (.orParam [Filter "id" (.scalar (.int 1)),
        Filter "id" (.scalar (.int 2))]) =
      .ok (orScope defaultBuilder [Filter "id" (.scalar (.int 1)),
        Filter "id" (.scalar (.int 2))]) ∧
     orScope defaultBuilder [Filter "id" (.scalar (.int 1)),
        Filter "id" (.scalar (.int 2))] tx1 =
      .ok { tx1 with
            wherePred := some (match tx1.wherePred with
              | some p => .and p (orChain ("id = ?", .scalar (.int 1))
                  [("id = ?", .scalar (.int 2))])
              | none => orChain ("id = ?", .scalar (.int 1))
                  [("id = ?", .scalar (.int 2))]) }) :=
  ⟨⟨rfl, rfl⟩,
   or_groups_as_single_and_term defaultBuilder (Filter "id" (.scalar (.int 1)))
     [Filter "id" (.scalar (.int 2))] tx1 ("id = ?", .scalar (.int 1))
     [("id = ?", .scalar (.int 2))] rfl rfl⟩

/-- Go: `func OR(params ...Param) Param` (src/query/or.go) — the loop body:
a `FilterParam` is collected, anything else panics with
`OR only accept FilterParam but got %s` for the param's kind. -/
def orCtorLoop : List Param → List FilterParam → Except String Param
  | [], acc => .ok (.orParam acc)
  | p :: rest, acc =>
      match p with
      | .filter f => orCtorLoop rest (acc ++ [f])
      | q => .error ("OR only accept FilterParam but got " ++ q.paramType)

/-- Go: `func OR(params ...Param) Param` — the panic is `Except.error`. -/
def OR (params : List Param) : Except String Param := orCtorLoop params []

/-- The first param in the list that is not a filter, if any. -/
def firstNonFilter : List Param → Option Param
  | [] => none
  | p :: rest =>
      match p with
      | .filter _ => firstNonFilter rest
      | q => some q

theorem orCtorLoop_eq (ps : List Param) : ∀ acc : List FilterParam,
    orCtorLoop ps acc =
      match firstNonFilter ps with
      | none => .ok (.orParam (acc ++ ps.filterMap asFilter))
      | some q => .error ("OR only accept FilterParam but got " ++ q.paramType) := by
  induction ps with
  | nil => intro acc; simp [orCtorLoop, firstNonFilter]
  | cons p rest ih =>
      intro acc
      cases p with
      | filter f =>
          show orCtorLoop rest (acc ++ [f]) =
            (match firstNonFilter rest with
             | none => Except.ok (Param.orParam (acc ++ (f :: rest.filterMap asFilter)))
             | some q => Except.error ("OR only accept FilterParam but got " ++ q.paramType))
          rw [ih (acc ++ [f])]
          cases hf : firstNonFilter rest with
          | none =>
              show Except.ok (Param.orParam ((acc ++ [f]) ++ rest.filterMap asFilter)) =
                Except.ok (Param.orParam (acc ++ (f :: rest.filterMap asFilter)))
              rw [List.append_assoc]
              rfl
          | some q => rfl
      | orParam a => rfl
      | orderBy a => rfl
      | groupBy a => rfl
      | selectParam a => rfl
      | paginate a b2 => rfl
      | preload a b2 => rfl
      | withLock a => rfl
      | withHint a => rfl
      | clauseLockForUpdate => rfl

/-- Claim C5: the `OR` constructor accepts a list of Filter params, yielding
an `ORParam` holding exactly those filters in order; any non-Filter argument
makes the construction abort with a descriptive panic naming the offending
param's kind (modelled as `Except.error`), rather than returning a value. -/
theorem or_constructor_validates (ps : List Param) :
    (firstNonFilter ps = none → OR ps = .ok (.orParam (ps.filterMap asFilter))) ∧
    (∀ q, firstNonFilter ps = some q →
      OR ps = .error ("OR only accept FilterParam but got " ++ q.paramType)) := by
  constructor
  · intro h
    show orCtorLoop ps [] = _
    rw [orCtorLoop_eq, h]
    rfl
  · intro q h
    show orCtorLoop ps [] = _
    rw [orCtorLoop_eq, h]

theorem or_constructor_validates_witness :
    OR [Param.filter (Filter "id" (.scalar (.int 1))),
        Param.filter (Filter "id" (.scalar (.int 2)))] =
      .ok (.orParam ([Param.filter (Filter "id" (.scalar (.int 1))),
        Param.filter (Filter "id" (.scalar (.int 2)))].filterMap asFilter)) ∧
    OR [Param.filter (Filter "id" (.scalar (.int 1))),
        Param.groupBy (GroupBy ["id"])] =
      .error ("OR only accept FilterParam but got " ++
        (Param.groupBy (GroupBy ["id"])).paramType) :=
  ⟨(or_constructor_validates _).1 rfl,
   (or_constructor_validates _).2 (Param.groupBy (GroupBy ["id"])) rfl⟩

/-- Claim C1, counterexample: building the default builder over a single
`WithLock` param with the unknown lock kind 1 succeeds with no error, and
the produced scope is the identity mutation — applying it to a concrete
query leaves the query unchanged, so the unknown lock kind is silently
ignored rather than reported. -/
theorem withLock_unknown_counterexample :
    defaultBuilder.Build (NewParams [Param.withLock 1]) = .ok (some [idScope]) ∧
    idScope tx1 = .ok tx1 :=
  ⟨rfl, rfl⟩

/-- Claim C1, amended: lowering a `WithLock` param whose lock kind is not
`LockTypeForUpdate` yields — with no error at build or apply time — the
identity scope, which returns the query unchanged (the unrecognized lock
kind is silently dropped). -/
theorem withLock_unknown_silently_ignored (b : ScopeBuilder) (k : Int)
    (tx : GormDB) (h : k ≠ LockTypeForUpdate) :
    b.ClauseLockUpdate (.withLock k) = .ok idScope ∧ idScope tx = .ok tx := by
  refine ⟨?_, rfl⟩
  show (if k = LockTypeForUpdate then Except.ok lockUpdateScope
        else Except.ok idScope) = _
  rw [if_neg h]

theorem withLock_unknown_silently_ignored_witness :
    (1 : Int) ≠ LockTypeForUpdate ∧
    (defaultBuilder.ClauseLockUpdate (.withLock 1) = .ok idScope ∧
     idScope tx1 = .ok tx1) :=
  ⟨by decide, withLock_unknown_silently_ignored defaultBuilder 1 tx1 (by decide)⟩

end GoFlexStore
